import Mathlib

/-!
Shallow embedding of the `forgetful` crate (`src/lib.rs`).

The crate provides a scoped membership tracker. An `Observer<'a, T>` owns a
shared registry `Rc<RefCell<HashSet<&'a T>>>`. `Observer::notice(item)`
checks whether an equal item is already registered; if so it returns `None`,
otherwise it inserts the item and returns `Some(Observation)`. Dropping an
`Observation` removes its wrapped item from the shared registry.

Modelling choices:
* The registry `HashSet<&'a T>` compares and hashes its `&'a T` elements by
  the value of the referent (via the `&'a T: Borrow<T>` bound), so at the
  value level it is a finite set of item values, embedded as `Finset T` with
  `[DecidableEq T]`. A second, reference-level model (`RefReg`) keeps the
  distinction between a reference (address) and its referent value, to settle
  claims about reference identity versus value equality.
* The shared mutable `Rc<RefCell<...>>` cell is embedded by threading the
  registry state explicitly through every operation.
* The dynamic borrow checks performed by `RefCell::borrow` /
  `RefCell::borrow_mut` (which panic on violation) are embedded by an
  `Except String` model in which each borrow is checked against the cell's
  borrow flag; since no borrow guard in the source outlives the operation
  that creates it, each operation starts with the flag free.
* A small trace semantics (`Op`, `stepOp`, `runOps`) runs an arbitrary
  caller-chosen sequence of `notice` calls and `Observation` releases and
  tracks, alongside the registry, the multiset of items wrapped by
  currently-alive `Observation` tokens.
-/

namespace Forgetful

variable {T : Type} [DecidableEq T]

/-- Embeds `Observation<'a, T>` (src/lib.rs lines 9-16): a token wrapping the
noticed item. The `recorder` field (shared registry handle) is embedded by
explicit state threading, so only the item is kept here. -/
structure Observation (T : Type) where
  item : T
deriving DecidableEq, Repr

/-- Embeds `Observation::new` (src/lib.rs lines 33-36): inserts the item into
the shared registry and returns the new token together with the updated
registry contents. -/
def Observation.new (recorder : Finset T) (item : T) : Observation T × Finset T :=
  (⟨item⟩, insert item recorder)

/-- Embeds `impl Drop for Observation` (src/lib.rs lines 44-46): removes the
wrapped item from the shared registry. -/
def Observation.drop (o : Observation T) (recorder : Finset T) : Finset T :=
  recorder.erase o.item

/-- Embeds `Observer::new` (src/lib.rs lines 104-108): the registry starts
empty (`Default::default()` for `HashSet` is the empty set). -/
def Observer.new (T : Type) [DecidableEq T] : Finset T :=
  ∅

/-- Embeds `Observer::notice` (src/lib.rs lines 110-116): if the item is
already present in the registry return `none` and leave the registry alone;
otherwise create a new `Observation` (which inserts the item). Returns the
optional token together with the registry contents after the call. -/
def Observer.notice (reg : Finset T) (item : T) : Option (Observation T) × Finset T :=
  if item ∈ reg then
    (none, reg)
  else
    let p := Observation.new reg item
    (some p.1, p.2)

/-! ### Trace semantics

A caller interacts with one `Observer` by calling `notice` and by letting
`Observation` tokens fall out of scope (in any order, not necessarily LIFO).
`Op` is one such event; `release x` releases a currently-alive token wrapping
`x` (dropping a token twice is impossible in the source language, so a
`release` of an item with no alive token is a no-op of the model). -/

/-- One caller-visible event on an `Observer`. -/
inductive Op (T : Type) where
  | notice (x : T)
  | release (x : T)
deriving DecidableEq, Repr

/-- The state of one `Observer` together with its outstanding tokens:
`reg` is the shared registry, `alive` lists the items wrapped by the
currently-alive `Observation` tokens (one entry per token). -/
structure ObsState (T : Type) where
  reg : Finset T
  alive : List T
deriving DecidableEq

/-- The state of a freshly constructed `Observer`: empty registry, no
outstanding tokens. -/
def initState (T : Type) [DecidableEq T] : ObsState T :=
  ⟨Observer.new T, []⟩

/-- One step of the trace semantics, defined through the embedded
`Observer::notice` and `Observation::drop`. A successful `notice` adds the
returned token to the alive list; `release x` drops one alive token wrapping
`x` (no-op if there is none, since such a release cannot happen). -/
def stepOp (s : ObsState T) : Op T → ObsState T
  | .notice x =>
    let p := Observer.notice s.reg x
    match p.1 with
    | none => ⟨p.2, s.alive⟩
    | some obs => ⟨p.2, obs.item :: s.alive⟩
  | .release x =>
    if x ∈ s.alive then
      ⟨Observation.drop ⟨x⟩ s.reg, s.alive.erase x⟩
    else
      s

/-- Runs a sequence of events from a state. -/
def runOps (s : ObsState T) (ops : List (Op T)) : ObsState T :=
  ops.foldl stepOp s

/-! ### Dynamic borrow model

`notice` takes a shared borrow of the `RefCell` for the containment check
(dropped at the end of the `if` condition), then — on the success path only —
`Observation::new` takes a mutable borrow for the insertion. `Drop` takes a
mutable borrow for the removal. A violated borrow panics; the model returns
`Except.error`. No borrow guard in the source escapes the operation that
creates it, so every operation finds the cell's flag free on entry. -/

/-- Borrow flag of a `RefCell`. -/
inductive BorrowFlag where
  | free
  | shared
  | exclusive
deriving DecidableEq, Repr

/-- `RefCell::borrow`: succeeds unless an exclusive borrow is outstanding. -/
def tryBorrow : BorrowFlag → Except String BorrowFlag
  | .exclusive => .error "RefCell already mutably borrowed"
  | _ => .ok .shared

/-- `RefCell::borrow_mut`: succeeds only when no borrow is outstanding. -/
def tryBorrowMut : BorrowFlag → Except String BorrowFlag
  | .free => .ok .exclusive
  | _ => .error "RefCell already borrowed"

/-- `Observer::notice` with the dynamic borrow checks made explicit: the
shared borrow for `contains`, released before the branches run, then on the
success path the mutable borrow taken inside `Observation::new`. -/
def noticeE (reg : Finset T) (item : T) :
    Except String (Option (Observation T) × Finset T) := do
  let _ ← tryBorrow .free
  if item ∈ reg then
    return (none, reg)
  else
    let _ ← tryBorrowMut .free
    return (some ⟨item⟩, insert item reg)

/-- `Observation`'s destructor with the dynamic borrow check made explicit. -/
def dropE (o : Observation T) (reg : Finset T) : Except String (Finset T) := do
  let _ ← tryBorrowMut .free
  return reg.erase o.item

/-- One step of the trace semantics in the borrow-checked model. -/
def stepOpE (s : ObsState T) : Op T → Except String (ObsState T)
  | .notice x => do
    let p ← noticeE s.reg x
    match p.1 with
    | none => return ⟨p.2, s.alive⟩
    | some obs => return ⟨p.2, obs.item :: s.alive⟩
  | .release x =>
    if x ∈ s.alive then do
      let reg ← dropE ⟨x⟩ s.reg
      return ⟨reg, s.alive.erase x⟩
    else
      return s

/-- Runs a sequence of events in the borrow-checked model. -/
def runOpsE (s : ObsState T) : List (Op T) → Except String (ObsState T)
  | [] => .ok s
  | op :: rest => do
    let s' ← stepOpE s op
    runOpsE s' rest

/-! ### Reference-level model

In the source the registry stores references `&'a T`, but `HashSet`'s
equality and hash on `&'a T` go through the referent value (the
`&'a T: Borrow<T>` bound), so containment, insertion and removal all compare
by value equality of referents, never by address. `RefT` is a reference:
an address paired with the referent value. -/

/-- A reference: an address plus the value of the referent. -/
structure RefT (T : Type) where
  addr : Nat
  val : T
deriving DecidableEq, Repr

/-- Registry contents at the reference level: the list of stored references
(a `HashSet<&T>` whose element equality is value equality of referents, so a
well-formed registry has no two entries with equal values). -/
def RefReg (T : Type) : Type :=
  List (RefT T)

/-- `HashSet::contains(item)`: containment by value equality of referents. -/
def refContains (reg : RefReg T) (v : T) : Bool :=
  reg.any fun r => r.val = v

/-- `HashSet::insert(item)`: if an entry with an equal value is present the
set is unchanged (the previously stored reference is kept); otherwise the
reference is added. -/
def refInsert (reg : RefReg T) (r : RefT T) : RefReg T :=
  if refContains reg r.val then reg else r :: reg

/-- `HashSet::remove(item)`: removes the (unique, if any) entry whose value
equals the referent of `item`. -/
def refRemove (reg : RefReg T) (v : T) : RefReg T :=
  match reg with
  | [] => []
  | r :: rest => if r.val = v then rest else r :: refRemove rest v

/-- `Observer::notice` at the reference level: the containment check and the
stored entry both use the caller's reference, but comparison is by referent
value. -/
def refNotice (reg : RefReg T) (r : RefT T) : Option (RefT T) × RefReg T :=
  if refContains reg r.val then
    (none, reg)
  else
    (some r, refInsert reg r)

/-- `Observation`'s destructor at the reference level: removes the entry
equal (by value) to the wrapped reference's referent. -/
def refDrop (o : RefT T) (reg : RefReg T) : RefReg T :=
  refRemove reg o.val

/-- Performs `n` observation cycles on one item: `notice x`, then release the
returned token, repeated. Returns `true` iff every `notice` in the sequence
succeeded. -/
def noticeReleaseCycles (x : T) : Nat → Finset T → Bool
  | 0, _ => true
  | n + 1, reg =>
    match Observer.notice reg x with
    | (none, _) => false
    | (some obs, reg') => noticeReleaseCycles x n (Observation.drop obs reg')

end Forgetful

/-! ### Theorems -/

namespace Forgetful

variable {T : Type} [DecidableEq T]

/-- Claim C1: if the item is already present in the registry, `notice`
returns no token and leaves the registry unchanged; otherwise it inserts the
item and returns a token wrapping it, and an immediate second `notice` of the
same item (first token still alive) returns empty. -/
theorem notice_registers_once (reg : Finset T) (x : T) :
    (x ∈ reg → Observer.notice reg x = (none, reg)) ∧
    (x ∉ reg →
      Observer.notice reg x = (some ⟨x⟩, insert x reg) ∧
      (Observer.notice (Observer.notice reg x).2 x).1 = none) := by
  constructor
  · intro h
    simp [Observer.notice, h]
  · intro h
    refine ⟨by simp [Observer.notice, Observation.new, h], ?_⟩
    simp [Observer.notice, Observation.new, h]

theorem notice_registers_once_witness :
    (Observer.notice ({0} : Finset ℕ) 0 = (none, {0})) ∧
    (Observer.notice (∅ : Finset ℕ) 0 = (some ⟨0⟩, insert 0 ∅) ∧
      (Observer.notice (Observer.notice (∅ : Finset ℕ) 0).2 0).1 = none) :=
  ⟨(notice_registers_once {0} 0).1 (by decide),
   (notice_registers_once ∅ 0).2 (by decide)⟩

/-- Claim C4: when `notice` fails (item already registered) the registry is
not mutated at all; `notice` mutates the registry only on the success path,
by the single insertion of the item. -/
theorem notice_failure_leaves_registry (reg : Finset T) (x : T) :
    (x ∈ reg → Observer.notice reg x = (none, reg)) ∧
    (x ∉ reg →
      (Observer.notice reg x).1.isSome ∧
      (Observer.notice reg x).2 = insert x reg) := by
  constructor
  · intro h
    simp [Observer.notice, h]
  · intro h
    constructor
    · simp [Observer.notice, Observation.new, h]
    · simp [Observer.notice, Observation.new, h]

theorem notice_failure_leaves_registry_witness :
    (Observer.notice ({3} : Finset ℕ) 3 = (none, {3})) ∧
    ((Observer.notice (∅ : Finset ℕ) 3).1.isSome ∧
      (Observer.notice (∅ : Finset ℕ) 3).2 = insert 3 ∅) :=
  ⟨(notice_failure_leaves_registry {3} 3).1 (by decide),
   (notice_failure_leaves_registry ∅ 3).2 (by decide)⟩

/-- Claim C8: `Observer::new` constructs an observer with an empty registry
(no failure conditions: it is a total function), so on a fresh observer the
first `notice` succeeds for every item. -/
theorem new_empty_first_notice_succeeds :
    Observer.new T = (∅ : Finset T) ∧
    ∀ x : T, Observer.notice (Observer.new T) x = (some ⟨x⟩, {x}) := by
  refine ⟨rfl, fun x => ?_⟩
  simp [Observer.new, Observer.notice, Observation.new]

/-- Claim C9: for an item not present, `notice` followed by releasing the
returned token restores the registry to exactly its previous contents, not
merely the item's own membership. -/
theorem notice_release_roundtrip (reg : Finset T) (x : T) (h : x ∉ reg) :
    (Observer.notice reg x).1 = some ⟨x⟩ ∧
    Observation.drop ⟨x⟩ (Observer.notice reg x).2 = reg := by
  constructor
  · simp [Observer.notice, Observation.new, h]
  · simp [Observer.notice, Observation.new, Observation.drop, h,
      Finset.erase_insert h]

theorem notice_release_roundtrip_witness :
    (Observer.notice ({1, 2} : Finset ℕ) 0).1 = some ⟨0⟩ ∧
    Observation.drop ⟨0⟩ (Observer.notice ({1, 2} : Finset ℕ) 0).2 = {1, 2} :=
  notice_release_roundtrip {1, 2} 0 (by decide)

end Forgetful

namespace Forgetful

variable {T : Type} [DecidableEq T]

/-- Claim C3: a successful `notice x` returns a token wrapping `x`; releasing
that token removes exactly `x` from the shared registry (membership of every
other item is untouched), and a subsequent `notice x` succeeds again. -/
theorem release_removes_exactly_item (reg : Finset T) (x : T) (h : x ∉ reg) :
    (Observer.notice reg x).1 = some ⟨x⟩ ∧
    Observation.drop ⟨x⟩ (Observer.notice reg x).2 =
      ((Observer.notice reg x).2).erase x ∧
    x ∉ Observation.drop ⟨x⟩ (Observer.notice reg x).2 ∧
    (∀ y : T, y ≠ x →
      (y ∈ Observation.drop ⟨x⟩ (Observer.notice reg x).2 ↔
        y ∈ (Observer.notice reg x).2)) ∧
    (Observer.notice (Observation.drop ⟨x⟩ (Observer.notice reg x).2) x).1 =
      some ⟨x⟩ := by
  have hn : Observer.notice reg x = (some ⟨x⟩, insert x reg) := by
    simp [Observer.notice, Observation.new, h]
  refine ⟨by simp [hn], by simp [hn, Observation.drop], ?_, ?_, ?_⟩
  · simp [hn, Observation.drop]
  · intro y hy
    simp [hn, Observation.drop, Finset.mem_erase, hy]
  · simp [hn, Observation.drop, Finset.erase_insert h, Observer.notice,
      Observation.new, h]

theorem release_removes_exactly_item_witness :
    (Observer.notice ({5} : Finset ℕ) 2).1 = some ⟨2⟩ ∧
    Observation.drop ⟨2⟩ (Observer.notice ({5} : Finset ℕ) 2).2 =
      ((Observer.notice ({5} : Finset ℕ) 2).2).erase 2 ∧
    2 ∉ Observation.drop ⟨2⟩ (Observer.notice ({5} : Finset ℕ) 2).2 ∧
    (∀ y : ℕ, y ≠ 2 →
      (y ∈ Observation.drop ⟨2⟩ (Observer.notice ({5} : Finset ℕ) 2).2 ↔
        y ∈ (Observer.notice ({5} : Finset ℕ) 2).2)) ∧
    (Observer.notice (Observation.drop ⟨2⟩ (Observer.notice ({5} : Finset ℕ) 2).2) 2).1 =
      some ⟨2⟩ :=
  release_removes_exactly_item {5} 2 (by decide)

/-- Claim C5: distinct unregistered items can be noticed in either order,
both succeeding; releasing either one's token removes only its own item and
leaves the other's registration untouched (no LIFO discipline required). -/
theorem notice_release_independent (reg : Finset T) (x y : T)
    (hx : x ∉ reg) (hy : y ∉ reg) (hxy : x ≠ y) :
    ((Observer.notice reg x).1.isSome ∧
      (Observer.notice (Observer.notice reg x).2 y).1.isSome) ∧
    ((Observer.notice reg y).1.isSome ∧
      (Observer.notice (Observer.notice reg y).2 x).1.isSome) ∧
    (x ∉ Observation.drop ⟨x⟩ (Observer.notice (Observer.notice reg x).2 y).2 ∧
      y ∈ Observation.drop ⟨x⟩ (Observer.notice (Observer.notice reg x).2 y).2) ∧
    (y ∉ Observation.drop ⟨y⟩ (Observer.notice (Observer.notice reg x).2 y).2 ∧
      x ∈ Observation.drop ⟨y⟩ (Observer.notice (Observer.notice reg x).2 y).2) := by
  have hnx : Observer.notice reg x = (some ⟨x⟩, insert x reg) := by
    simp [Observer.notice, Observation.new, hx]
  have hy' : y ∉ insert x reg := by
    simp [Finset.mem_insert, hy, hxy.symm]
  have hny : Observer.notice (insert x reg) y =
      (some ⟨y⟩, insert y (insert x reg)) := by
    simp [Observer.notice, Observation.new, hy']
  have hnyr : Observer.notice reg y = (some ⟨y⟩, insert y reg) := by
    simp [Observer.notice, Observation.new, hy]
  have hx' : x ∉ insert y reg := by
    simp [Finset.mem_insert, hx, hxy]
  refine ⟨⟨by simp [hnx], by simp [hnx, hny]⟩,
    ⟨by simp [hnyr], by rw [hnyr]; simp [Observer.notice, Observation.new, hx']⟩,
    ⟨?_, ?_⟩, ⟨?_, ?_⟩⟩
  · simp [hnx, hny, Observation.drop]
  · simp [hnx, hny, Observation.drop, Finset.mem_erase, hxy.symm]
  · simp [hnx, hny, Observation.drop]
  · simp [hnx, hny, Observation.drop, Finset.mem_erase, hxy]

theorem notice_release_independent_witness :
    ((Observer.notice (∅ : Finset ℕ) 0).1.isSome ∧
      (Observer.notice (Observer.notice (∅ : Finset ℕ) 0).2 1).1.isSome) ∧
    ((Observer.notice (∅ : Finset ℕ) 1).1.isSome ∧
      (Observer.notice (Observer.notice (∅ : Finset ℕ) 1).2 0).1.isSome) ∧
    (0 ∉ Observation.drop ⟨0⟩ (Observer.notice (Observer.notice (∅ : Finset ℕ) 0).2 1).2 ∧
      1 ∈ Observation.drop ⟨0⟩ (Observer.notice (Observer.notice (∅ : Finset ℕ) 0).2 1).2) ∧
    (1 ∉ Observation.drop ⟨1⟩ (Observer.notice (Observer.notice (∅ : Finset ℕ) 0).2 1).2 ∧
      0 ∈ Observation.drop ⟨1⟩ (Observer.notice (Observer.notice (∅ : Finset ℕ) 0).2 1).2) :=
  notice_release_independent ∅ 0 1 (by decide) (by decide) (by decide)

/-- Helper for claim C6: starting from any registry not containing `x`, every
`notice` in a sequence of `n` notice-then-release cycles on `x` succeeds. -/
theorem noticeReleaseCycles_all_succeed (x : T) (n : Nat) (reg : Finset T)
    (h : x ∉ reg) : noticeReleaseCycles x n reg = true := by
  induction n generalizing reg with
  | zero => rfl
  | succ n ih =>
    have hn : Observer.notice reg x = (some ⟨x⟩, insert x reg) := by
      simp [Observer.notice, Observation.new, h]
    rw [noticeReleaseCycles, hn]
    simp only [Observation.drop, Finset.erase_insert h]
    exact ih reg h

/-- Claim C6: the per-item state machine. `notice` on an unregistered item
registers it and yields a token wrapping it; `notice` on a registered item is
a pure query returning failure with the state unchanged; releasing the token
deregisters the item; and the notice-release cycle can be repeated any number
of times, every `notice` succeeding while the item is unregistered. -/
theorem per_item_state_machine (reg : Finset T) (x : T) (n : Nat) :
    (x ∈ reg → Observer.notice reg x = (none, reg)) ∧
    (x ∉ reg →
      (Observer.notice reg x).1 = some ⟨x⟩ ∧
      x ∈ (Observer.notice reg x).2 ∧
      x ∉ Observation.drop ⟨x⟩ (Observer.notice reg x).2 ∧
      noticeReleaseCycles x n reg = true) := by
  constructor
  · intro h
    simp [Observer.notice, h]
  · intro h
    have hn : Observer.notice reg x = (some ⟨x⟩, insert x reg) := by
      simp [Observer.notice, Observation.new, h]
    exact ⟨by simp [hn], by simp [hn], by simp [hn, Observation.drop],
      noticeReleaseCycles_all_succeed x n reg h⟩

theorem per_item_state_machine_witness :
    (Observer.notice ({7} : Finset ℕ) 7 = (none, {7})) ∧
    ((Observer.notice (∅ : Finset ℕ) 7).1 = some ⟨7⟩ ∧
      7 ∈ (Observer.notice (∅ : Finset ℕ) 7).2 ∧
      7 ∉ Observation.drop ⟨7⟩ (Observer.notice (∅ : Finset ℕ) 7).2 ∧
      noticeReleaseCycles 7 4 (∅ : Finset ℕ) = true) :=
  ⟨(per_item_state_machine {7} 7 4).1 (by decide),
   (per_item_state_machine ∅ 7 4).2 (by decide)⟩

end Forgetful

namespace Forgetful

variable {T : Type} [DecidableEq T]

/-- Helper: `notice` of a registered item is a stutter step of the trace
semantics. -/
theorem stepOp_notice_mem (s : ObsState T) (x : T) (h : x ∈ s.reg) :
    stepOp s (.notice x) = s := by
  simp [stepOp, Observer.notice, h]

/-- Helper: `notice` of an unregistered item registers it and adds an alive
token for it. -/
theorem stepOp_notice_not_mem (s : ObsState T) (x : T) (h : x ∉ s.reg) :
    stepOp s (.notice x) = ⟨insert x s.reg, x :: s.alive⟩ := by
  simp [stepOp, Observer.notice, Observation.new, h]

/-- Helper: releasing an alive token erases its item from the registry and
removes one alive entry for it. -/
theorem stepOp_release_mem (s : ObsState T) (x : T) (h : x ∈ s.alive) :
    stepOp s (.release x) = ⟨s.reg.erase x, s.alive.erase x⟩ := by
  simp [stepOp, Observation.drop, h]

/-- Helper: a release with no alive token for the item is a stutter step. -/
theorem stepOp_release_not_mem (s : ObsState T) (x : T) (h : x ∉ s.alive) :
    stepOp s (.release x) = s := by
  simp [stepOp, h]

/-- Helper for claim C2: one event preserves the correspondence between the
registry and the alive tokens. -/
theorem stepOp_preserves_correspondence (s : ObsState T) (op : Op T)
    (hnd : s.alive.Nodup) (hmem : ∀ y : T, y ∈ s.reg ↔ y ∈ s.alive) :
    (stepOp s op).alive.Nodup ∧
    ∀ y : T, y ∈ (stepOp s op).reg ↔ y ∈ (stepOp s op).alive := by
  cases op with
  | notice x =>
    by_cases h : x ∈ s.reg
    · rw [stepOp_notice_mem s x h]
      exact ⟨hnd, hmem⟩
    · rw [stepOp_notice_not_mem s x h]
      have hxa : x ∉ s.alive := fun hx => h ((hmem x).2 hx)
      refine ⟨List.nodup_cons.2 ⟨hxa, hnd⟩, fun y => ?_⟩
      simp only [Finset.mem_insert, List.mem_cons, hmem y]
  | release x =>
    by_cases h : x ∈ s.alive
    · rw [stepOp_release_mem s x h]
      refine ⟨hnd.erase x, fun y => ?_⟩
      rw [Finset.mem_erase, hnd.mem_erase_iff]
      exact and_congr_right fun _ => hmem y
    · rw [stepOp_release_not_mem s x h]
      exact ⟨hnd, hmem⟩

/-- Claim C2: after any sequence of notice and release events on one
observer, the items wrapped by the currently-alive tokens are pairwise
distinct (each registered item has exactly one alive token) and an item is
in the registry exactly when it has an alive token. -/
theorem alive_registry_correspondence (ops : List (Op T)) :
    (runOps (initState T) ops).alive.Nodup ∧
    ∀ y : T, y ∈ (runOps (initState T) ops).reg ↔
      y ∈ (runOps (initState T) ops).alive := by
  suffices h : ∀ s : ObsState T, s.alive.Nodup →
      (∀ y : T, y ∈ s.reg ↔ y ∈ s.alive) →
      (runOps s ops).alive.Nodup ∧
      ∀ y : T, y ∈ (runOps s ops).reg ↔ y ∈ (runOps s ops).alive by
    exact h (initState T) List.nodup_nil (by simp [initState, Observer.new])
  induction ops with
  | nil =>
    intro s h1 h2
    exact ⟨h1, h2⟩
  | cons op rest ih =>
    intro s h1 h2
    have hstep := stepOp_preserves_correspondence s op h1 h2
    simpa [runOps] using ih (stepOp s op) hstep.1 hstep.2

/-- Helper: binding a successful `Except` computation runs the
continuation. -/
theorem ok_bind {α β : Type} (a : α) (f : α → Except String β) :
    (Except.ok a >>= f : Except String β) = f a :=
  rfl

/-- Helper: `pure` in the `Except` monad is `Except.ok`. -/
theorem pure_eq_ok {α : Type} (a : α) :
    (pure a : Except String α) = Except.ok a :=
  rfl

/-- Helper for claim C7: the borrow-checked `notice` never hits a violated
borrow; it returns exactly the plain `notice` result. -/
theorem noticeE_eq_ok (reg : Finset T) (x : T) :
    noticeE reg x = Except.ok (Observer.notice reg x) := by
  by_cases h : x ∈ reg <;>
    simp [noticeE, Observer.notice, Observation.new, tryBorrow, tryBorrowMut,
      ok_bind, pure_eq_ok, h]

/-- Helper for claim C7: the borrow-checked destructor never hits a violated
borrow; it returns exactly the plain removal. -/
theorem dropE_eq_ok (o : Observation T) (reg : Finset T) :
    dropE o reg = Except.ok (Observation.drop o reg) := by
  simp [dropE, tryBorrowMut, Observation.drop]

/-- Helper for claim C7: one borrow-checked event never errors. -/
theorem stepOpE_eq_ok (s : ObsState T) (op : Op T) :
    stepOpE s op = Except.ok (stepOp s op) := by
  cases op with
  | notice x =>
    cases hr : (Observer.notice s.reg x).1 <;>
      simp [stepOpE, stepOp, noticeE_eq_ok, ok_bind, pure_eq_ok, hr]
  | release x =>
    by_cases h : x ∈ s.alive <;>
      simp [stepOpE, stepOp, dropE_eq_ok, Observation.drop, ok_bind,
        pure_eq_ok, h]

/-- Helper for claim C7: a whole borrow-checked run never errors. -/
theorem runOpsE_eq_ok (s : ObsState T) (ops : List (Op T)) :
    runOpsE s ops = Except.ok (runOps s ops) := by
  induction ops generalizing s with
  | nil => simp [runOpsE, runOps]
  | cons op rest ih =>
    simp [runOpsE, runOps, stepOpE_eq_ok, ok_bind, ih]

/-- Claim C7: under any single-threaded sequence of notice and release
events the implementation never panics (the borrow-checked model never
returns an error), and the absent token is the sole failure signal: `notice`
returns no token exactly when the item is already registered. -/
theorem no_crash_sole_failure_signal (s : ObsState T) (ops : List (Op T)) :
    runOpsE s ops = Except.ok (runOps s ops) ∧
    ∀ (reg : Finset T) (x : T), (Observer.notice reg x).1 = none ↔ x ∈ reg := by
  refine ⟨runOpsE_eq_ok s ops, fun reg x => ?_⟩
  by_cases h : x ∈ reg <;> simp [Observer.notice, Observation.new, h]

/-- Claim C10: identity is value equality, not reference identity. For two
different references `r1 ≠ r2` (distinct addresses) to equal values, with the
value not yet registered: `notice r1` succeeds and the registry stores the
reference `r1`; while that token is alive, `notice r2` fails; releasing the
token — which wraps `r1` — removes the entry, after which `notice r2`
succeeds. -/
theorem value_equality_not_reference_identity (reg : RefReg T) (r1 r2 : RefT T)
    (hval : r1.val = r2.val) (haddr : r1.addr ≠ r2.addr)
    (habs : refContains reg r1.val = false) :
    r1 ≠ r2 ∧
    refNotice reg r1 = (some r1, r1 :: reg) ∧
    (refNotice (r1 :: reg) r2).1 = none ∧
    refDrop r1 (r1 :: reg) = reg ∧
    (refNotice (refDrop r1 (r1 :: reg)) r2).1 = some r2 := by
  have habs2 : refContains reg r2.val = false := by
    rw [← hval]
    exact habs
  have hc : refContains (r1 :: reg) r2.val = true := by
    simp [refContains, hval]
  refine ⟨fun h => haddr (congrArg RefT.addr h), ?_, ?_, ?_, ?_⟩
  · simp [refNotice, refInsert, habs]
  · simp [refNotice, hc]
  · simp [refDrop, refRemove]
  · simp [refDrop, refRemove, refNotice, habs2]

theorem value_equality_not_reference_identity_witness :
    (⟨0, 7⟩ : RefT ℕ) ≠ ⟨1, 7⟩ ∧
    refNotice ([] : RefReg ℕ) ⟨0, 7⟩ = (some ⟨0, 7⟩, [⟨0, 7⟩]) ∧
    (refNotice [(⟨0, 7⟩ : RefT ℕ)] ⟨1, 7⟩).1 = none ∧
    refDrop (⟨0, 7⟩ : RefT ℕ) [⟨0, 7⟩] = [] ∧
    (refNotice (refDrop (⟨0, 7⟩ : RefT ℕ) [⟨0, 7⟩]) ⟨1, 7⟩).1 = some ⟨1, 7⟩ :=
  value_equality_not_reference_identity [] ⟨0, 7⟩ ⟨1, 7⟩ rfl (by decide) rfl

end Forgetful
